import Mathlib

/-!
Verification of the two scripts of this repository:
  * `src/server/scripts/map_deploy.py` — scans a directory of CSV tilemap
    files, flattens each into a template record, and invokes the external
    `spacetime` command-line client once with a JSON payload.
  * `src/validate_combat_systems.py` — greps a C# codebase for expected
    declarations and methods and exits 0 iff at least 80% of checks pass.

The Python code is shallowly embedded: file contents are lists of lines
(`List String`), the filesystem of the validator is a total map from paths
to a `FileView`, fallible parsing returns `Option`, and the single
subprocess invocation is modelled by passing in the external client's
response as a function of the command line.
-/

namespace PyStr

/-- The ASCII whitespace characters recognised by Python's `str.strip()`
and by the regex class `\s` (space, tab, newline, carriage return,
vertical tab, form feed).  Non-ASCII Unicode whitespace is not modelled;
it never occurs in the inputs the claims are about. -/
def isPySpace (c : Char) : Bool :=
  c = ' ' || c = '\t' || c = '\n' || c = '\x0d' || c = '\x0b' || c = '\x0c'

/-- Python `s.strip()`: remove leading and trailing whitespace. -/
def pyStrip (s : String) : String :=
  String.mk (((s.toList.dropWhile isPySpace).reverse.dropWhile isPySpace).reverse)

/-- Split a character list at every comma, keeping empty fields,
exactly like Python `s.split(',')` (so `"".split(',') == ['']`). -/
def splitComma : List Char → List (List Char)
  | [] => [[]]
  | c :: rest =>
    if c = ',' then [] :: splitComma rest
    else
      match splitComma rest with
      | [] => [[c]]
      | t :: ts => (c :: t) :: ts

/-- Python `s.split(',')`. -/
def pySplit (s : String) : List String :=
  (splitComma s.toList).map String.mk

/-- Value of a nonempty string of decimal digits, `none` if empty or a
non-digit occurs. -/
def digitsVal : List Char → Option Nat
  | [] => none
  | [c] => if c.isDigit then some (c.toNat - '0'.toNat) else none
  | c :: rest =>
    if c.isDigit then
      (digitsVal rest).map (fun n => (c.toNat - '0'.toNat) * 10 ^ rest.length + n)
    else none

/-- Python `s.endswith(suffix)`, over characters. -/
def strEndsWith (s suffix : String) : Bool :=
  suffix.toList.isSuffixOf s.toList

/-- Python `s.replace(old, "")` for a nonempty `old`: delete every
non-overlapping occurrence, scanning left to right.  The fuel argument
makes the recursion structural; `s.length` steps always suffice. -/
def removeAllAux (pat : List Char) : Nat → List Char → List Char
  | _, [] => []
  | 0, s => s
  | fuel + 1, c :: rest =>
    if pat.isPrefixOf (c :: rest) then
      removeAllAux pat fuel ((c :: rest).drop pat.length)
    else c :: removeAllAux pat fuel rest

/-- Python `s.replace(old, "")` for a nonempty `old`. -/
def strRemoveAll (s pat : String) : String :=
  String.mk (removeAllAux pat.toList s.toList.length s.toList)

/-- Python `int(s)` on an already-stripped string: an optional sign
followed by at least one decimal digit; anything else raises
(modelled as `none`).  Underscore digit grouping and non-ASCII digits,
accepted by CPython, are not modelled; no claim depends on them. -/
def pyInt? (s : String) : Option Int :=
  match s.toList with
  | '-' :: rest => (digitsVal rest).map (fun n => -(n : Int))
  | '+' :: rest => (digitsVal rest).map (fun n => (n : Int))
  | l => (digitsVal l).map (fun n => (n : Int))

end PyStr

namespace MapDeploy

open PyStr

/-- `SERVER_URL` from `map_deploy.py`. -/
def SERVER_URL : String := "http://localhost:7734"

/-- `DB_IDENTITY` from `map_deploy.py`. -/
def DB_IDENTITY : String := "guildmaster"

/-- The in-memory template record built per CSV file by `run_deploy`. -/
structure MapTemplate where
  name : String
  width : Nat
  height : Nat
  tile_data : List Int
  deriving DecidableEq, Repr

/-- `[l.strip() for l in f.readlines() if l.strip()]`: the stripped,
nonempty lines of a file's contents. -/
def effLines (content : List String) : List String :=
  (content.map pyStrip).filter (fun l => l ≠ "")

/-- Collect a list of optional values, failing if any entry is `none`
(the effect of an exception inside a Python list comprehension). -/
def optList {α : Type} : List (Option α) → Option (List α)
  | [] => some []
  | none :: _ => none
  | some a :: rest => (optList rest).map (a :: ·)

/-- `[int(t.strip()) for t in line.split(',') if t.strip()]`: the tile
values of one CSV row; `none` if some kept token is not an integer
(Python raises `ValueError`). -/
def rowInts? (line : String) : Option (List Int) :=
  optList (((pySplit line).filter (fun t => pyStrip t ≠ "")).map (fun t => pyInt? (pyStrip t)))

/-- Per-file processing of `run_deploy` (lines 19–36 of
`map_deploy.py`): strip and drop blank lines; if nothing is left the
file is skipped (`some none`); otherwise `height` is the number of
lines, `width` the comma-field count of the first line, and the tile
data the row-major concatenation of the rows' integers.  A non-integer
token makes the whole run raise (`none`). -/
def parseCsv? (content : List String) : Option (Option (Nat × Nat × List Int)) :=
  if effLines content = [] then some none
  else
    (optList ((effLines content).map rowInts?)).map
      (fun rows => some ((pySplit ((effLines content).headD "")).length,
                         (effLines content).length, rows.flatten))

/-- The template list accumulated by the directory scan of
`run_deploy`: files are visited in listing order, only names ending in
`.csv` are considered, blank files are skipped, and the template name
is the filename with every occurrence of `.csv` removed. -/
def deployTemplates? : List (String × List String) → Option (List MapTemplate)
  | [] => some []
  | (fname, content) :: rest =>
    if strEndsWith fname ".csv" then
      match parseCsv? content with
      | none => none
      | some none => deployTemplates? rest
      | some (some (w, h, td)) =>
        (deployTemplates? rest).map (fun ts => ⟨strRemoveAll fname ".csv", w, h, td⟩ :: ts)
    else deployTemplates? rest

/-! Model of Python `json.dumps` with its default settings
(`ensure_ascii=True`, item separator `", "`, key separator `": "`),
restricted to the values `run_deploy` serialises. -/

/-- Lower-case hexadecimal digit. -/
def hexDigit (n : Nat) : Char :=
  if n < 10 then Char.ofNat ('0'.toNat + n) else Char.ofNat ('a'.toNat + n - 10)

/-- Four-digit lower-case hexadecimal rendering, as in `\uXXXX`. -/
def hex4 (n : Nat) : String :=
  String.mk [hexDigit (n / 4096 % 16), hexDigit (n / 256 % 16),
             hexDigit (n / 16 % 16), hexDigit (n % 16)]

/-- How `json.dumps` renders one character inside a string literal:
`"` and `\` get a backslash, the usual control-character short forms
are used, and every other character outside `0x20`–`0x7e` becomes
`\uXXXX` (a surrogate pair beyond the BMP). -/
def jsonEscapeChar (c : Char) : String :=
  if c = '"' then "\\\""
  else if c = '\\' then "\\\\"
  else if c = '\n' then "\\n"
  else if c = '\x0d' then "\\r"
  else if c = '\t' then "\\t"
  else if c = '\x08' then "\\b"
  else if c = '\x0c' then "\\f"
  else if c.toNat < 0x20 || c.toNat > 0x7e then
    if c.toNat < 0x10000 then "\\u" ++ hex4 c.toNat
    else
      "\\u" ++ hex4 (0xd800 + (c.toNat - 0x10000) / 0x400) ++
      "\\u" ++ hex4 (0xdc00 + (c.toNat - 0x10000) % 0x400)
  else String.mk [c]

/-- `json.dumps` of a string. -/
def jsonString (s : String) : String :=
  "\"" ++ String.join (s.toList.map jsonEscapeChar) ++ "\""

/-- `json.dumps` of a list of ints. -/
def jsonIntList (l : List Int) : String :=
  "[" ++ String.intercalate ", " (l.map toString) ++ "]"

/-- `json.dumps` of one template dict; keys appear in insertion order. -/
def jsonTemplate (t : MapTemplate) : String :=
  "\x7b\"name\": " ++ jsonString t.name ++
  ", \"width\": " ++ toString t.width ++
  ", \"height\": " ++ toString t.height ++
  ", \"tile_data\": " ++ jsonIntList t.tile_data ++ "\x7d"

/-- `json.dumps` of the template list. -/
def jsonTemplateList (ts : List MapTemplate) : String :=
  "[" ++ String.intercalate ", " (ts.map jsonTemplate) ++ "]"

/-- `json.dumps(args)` where `args = [all_templates]` (line 43). -/
def jsonArgs (ts : List MapTemplate) : String :=
  "[" ++ jsonTemplateList ts ++ "]"

/-- The response of the external `spacetime` process. -/
structure SubprocessResult where
  returncode : Int
  stdout : String
  stderr : String

/-- The command line built at lines 48–51 of `map_deploy.py`. -/
def deployCmd (ts : List MapTemplate) : List String :=
  ["spacetime", "call", "-s", SERVER_URL, DB_IDENTITY,
   "replace_all_templates", jsonArgs ts]

/-- Observable outcome of one `run_deploy` invocation: the templates
built, every subprocess command issued, whether the no-maps warning was
printed, and the stderr text printed on a non-zero exit (if any). -/
structure DeployOutcome where
  templates : List MapTemplate
  calls : List (List String)
  warned : Bool
  errPrinted : Option String
  deriving DecidableEq, Repr

/-- `run_deploy` (lines 10–58): build the templates; with none, warn
and return without calling anything; otherwise call the client once
and print its stderr iff its exit code is non-zero.  The external
client's behaviour is passed in as `res`; a `none` result is the
unhandled parsing exception. -/
def run_deploy (files : List (String × List String))
    (res : List String → SubprocessResult) : Option DeployOutcome :=
  match deployTemplates? files with
  | none => none
  | some ts =>
    if ts = [] then some ⟨ts, [], true, none⟩
    else
      some ⟨ts, [deployCmd ts], false,
            if (res (deployCmd ts)).returncode = 0 then none
            else some (res (deployCmd ts)).stderr⟩

end MapDeploy

namespace Validator

open PyStr

/-- What the validator can observe about a path: `os.path.exists` is
false exactly for `missing`; opening an `unreadable` file raises (the
`except` branches return `False`); a `readable` file yields its text. -/
inductive FileView where
  | missing
  | unreadable
  | readable (content : String)
  deriving DecidableEq

/-- `check_file_exists` (lines 11–18): true iff the path exists. -/
def check_file_exists (fs : String → FileView) (p : String) : Bool :=
  match fs p with
  | .missing => false
  | _ => true

/-! The three regular expressions of `check_class_definition` and the
one of `check_method_exists` are embedded by a nondeterministic
matcher: a pattern maps an input suffix to the list of every remainder
it can leave, and `re.search` succeeds iff some start position admits
some remainder.  This captures the regex semantics exactly (order of
alternatives only affects which match is found, not whether one is). -/

/-- Match a literal, as regex text with no metacharacters. -/
def pLit (lit : List Char) (s : List Char) : List (List Char) :=
  if lit.isPrefixOf s then [s.drop lit.length] else []

/-- `\s+`: one or more whitespace characters, any count. -/
def pWs1 : List Char → List (List Char)
  | [] => []
  | c :: rest => if isPySpace c then rest :: pWs1 rest else []

/-- Sequencing of two patterns. -/
def pThen (p q : List Char → List (List Char)) (s : List Char) : List (List Char) :=
  (p s).flatMap q

/-- `(?:...)?`: zero or one occurrence. -/
def pOpt (p : List Char → List (List Char)) (s : List Char) : List (List Char) :=
  s :: p s

/-- `(?:...|...)`: alternation. -/
def pAlt (p q : List Char → List (List Char)) (s : List Char) : List (List Char) :=
  p s ++ q s

/-- `.*`: zero or more characters other than a newline. -/
def pDotStar : List Char → List (List Char)
  | [] => [[]]
  | c :: rest => (c :: rest) :: (if c = '\n' then [] else pDotStar rest)

/-- `re.search`: try the pattern at every start position. -/
def reSearch (m : List Char → List (List Char)) : List Char → Bool
  | [] => !(m []).isEmpty
  | c :: rest => !(m (c :: rest)).isEmpty || reSearch m rest

/-- `rf'public\s+(?:partial\s+)?class\s+{name}'` anchored at the
current position.  The checked name is interpolated into the regex
verbatim and is modelled as a literal, faithful for the identifier
names every call site passes. -/
def classPatAt (name : List Char) : List Char → List (List Char) :=
  pThen (pLit ("public".toList))
    (pThen pWs1
      (pThen (pOpt (pThen (pLit ("partial".toList)) pWs1))
        (pThen (pLit ("class".toList)) (pThen pWs1 (pLit name)))))

/-- `rf'public\s+interface\s+{name}'` anchored at the current position. -/
def ifacePatAt (name : List Char) : List Char → List (List Char) :=
  pThen (pLit ("public".toList))
    (pThen pWs1 (pThen (pLit ("interface".toList)) (pThen pWs1 (pLit name))))

/-- `rf'public\s+struct\s+{name}'` anchored at the current position. -/
def structPatAt (name : List Char) : List Char → List (List Char) :=
  pThen (pLit ("public".toList))
    (pThen pWs1 (pThen (pLit ("struct".toList)) (pThen pWs1 (pLit name))))

/-- `check_class_definition` (lines 20–48): false when the file is
missing or unreadable, else true iff one of the three patterns occurs
in the content. -/
def check_class_definition (fs : String → FileView) (p name : String) : Bool :=
  match fs p with
  | .readable content =>
    reSearch (classPatAt name.toList) content.toList ||
    reSearch (ifacePatAt name.toList) content.toList ||
    reSearch (structPatAt name.toList) content.toList
  | _ => false

/-- `rf'(?:public|private|protected)\s+.*\s+{name}\s*\('` anchored at
the current position. -/
def methodPatAt (name : List Char) : List Char → List (List Char) :=
  pThen (pAlt (pLit ("public".toList))
          (pAlt (pLit ("private".toList)) (pLit ("protected".toList))))
    (pThen pWs1
      (pThen pDotStar
        (pThen pWs1
          (pThen (pLit name) (pThen (pOpt pWs1) (pLit ("(".toList)))))))

/-- `check_method_exists` (lines 50–69): false when the file is missing
or unreadable, else true iff the method pattern occurs in the content. -/
def check_method_exists (fs : String → FileView) (p name : String) : Bool :=
  match fs p with
  | .readable content => reSearch (methodPatAt name.toList) content.toList
  | _ => false

/-- `core_files` (lines 75–87). -/
def core_files : List (String × String) := [
  ("Scripts/Core/CombatSystem.cs", "CombatSystem"),
  ("Scripts/Core/ICombatSystem.cs", "ICombatSystem"),
  ("Scripts/Core/ProjectileManager.cs", "ProjectileManager"),
  ("Scripts/Core/InventorySystem.cs", "InventorySystem"),
  ("Scripts/Core/IInventorySystem.cs", "IInventorySystem"),
  ("Scripts/Core/MovementSystem.cs", "MovementSystem"),
  ("Scripts/Core/IMovementSystem.cs", "IMovementSystem"),
  ("Scripts/Core/InputManager.cs", "InputManager"),
  ("Scripts/Core/IInputManager.cs", "IInputManager"),
  ("Scripts/Core/MapSystem.cs", "MapSystem"),
  ("Scripts/Core/IMapSystem.cs", "IMapSystem")]

/-- `test_files` (lines 90–96). -/
def test_files : List (String × String) := [
  ("Scripts/Test/CombatSystemTest.cs", "CombatSystemTest"),
  ("Scripts/Test/ProjectileSystemTest.cs", "ProjectileSystemTest"),
  ("Scripts/Test/MovementSystemTest.cs", "MovementSystemTest"),
  ("Scripts/Test/InputManagerTest.cs", "InputManagerTest"),
  ("Scripts/Test/MapSystemTest.cs", "MapSystemTest")]

/-- `data_files` (lines 99–104). -/
def data_files : List (String × String) := [
  ("Scripts/Data/PlayerData.cs", "PlayerData"),
  ("Scripts/Data/CombatData.cs", "WeaponData"),
  ("Scripts/Data/MapData.cs", "MapData"),
  ("Scripts/Data/EnemyData.cs", "EnemyData")]

/-- `network_files` (lines 107–110). -/
def network_files : List (String × String) := [
  ("Scripts/Network/SpacetimeDBClient.cs", "SpacetimeDBClient"),
  ("Scripts/GameManager.cs", "GameManager")]

/-- `combat_methods` (lines 138–144). -/
def combat_methods : List String :=
  ["ExecuteAttack", "ProcessHit", "CreateProjectile",
   "IsPlayerAttacking", "GetEquippedWeapon"]

/-- `projectile_methods` (lines 153–157). -/
def projectile_methods : List String :=
  ["CreateProjectile", "GetActiveProjectiles", "GetProjectileConfig"]

/-- One file-list loop of `main`: an entry counts iff its file exists
and its symbol check succeeds. -/
def countPassed (fs : String → FileView) (entries : List (String × String)) : Nat :=
  (entries.filter
    (fun e => check_file_exists fs e.1 && check_class_definition fs e.1 e.2)).length

/-- One method-list loop of `main`. -/
def countMethods (fs : String → FileView) (p : String) (methods : List String) : Nat :=
  (methods.filter (fun m => check_method_exists fs p m)).length

/-- The numerator of the IEEE-754 binary64 value of the literal `0.8`:
the double nearest `0.8` is `3602879701896397 / 2 ^ 52`. -/
def float0_8_num : Nat := 3602879701896397

/-- Structural computation of the floor of the base-2 logarithm, with
explicit fuel so that it reduces in the kernel; `n` halving steps
always suffice. -/
def log2Fuel : Nat → Nat → Nat
  | 0, _ => 0
  | fuel + 1, n => if n < 2 then 0 else log2Fuel fuel (n / 2) + 1

/-- Floor of the base-2 logarithm (`0` at `0`). -/
def floorLog2 (n : Nat) : Nat := log2Fuel n n

/-- Round `p / 2 ^ e` to the nearest integer, ties to even. -/
def roundHalfEven (p e : Nat) : Nat :=
  if 2 * (p % 2 ^ e) < 2 ^ e then p / 2 ^ e
  else if 2 ^ e < 2 * (p % 2 ^ e) then p / 2 ^ e + 1
  else if p / 2 ^ e % 2 = 0 then p / 2 ^ e else p / 2 ^ e + 1

/-- Binade exponent of the exact product
`checks * (3602879701896397 / 2 ^ 52)`. -/
def thresholdExp (checks : Nat) : Nat :=
  floorLog2 (checks * float0_8_num / 2 ^ 52)

/-- Mantissa of the binary64 result of the Python expression
`total_checks * 0.8`: the exact product, scaled so that the double
grid `2 ^ (exp - 52)` becomes the integers, rounded to nearest with
ties to even.  The double equals `mantissa / 2 ^ (52 - exp)`. -/
def thresholdMantissa (checks : Nat) : Nat :=
  roundHalfEven (checks * float0_8_num) (thresholdExp checks)

/-- The comparison `total_passed >= total_checks * 0.8` (line 178).
CPython converts `total_checks` to a double exactly, multiplies it by
the double nearest `0.8` with one correctly-rounded operation, and
compares the resulting double with the int `total_passed` exactly.
The model is exact for products in `[1, 2 ^ 53)`, hence for every run
of the script (`total_checks` is always `30`). -/
def passCheck (passed checks : Nat) : Bool :=
  decide (passed * 2 ^ (52 - thresholdExp checks) ≥ thresholdMantissa checks)

/-- What one run of `main` (plus the `__main__` guard) produces. -/
structure Summary where
  core_passed : Nat
  test_passed : Nat
  data_passed : Nat
  network_passed : Nat
  combat_methods_passed : Nat
  projectile_methods_passed : Nat
  total_passed : Nat
  total_checks : Nat
  success : Bool
  exitCode : Nat
  deriving DecidableEq, Repr

/-- `main` (lines 71–183) and the process exit at line 187: every loop
runs over its whole list, the tallies are summed, and the run succeeds
iff the 80% threshold comparison holds. -/
def mainRun (fs : String → FileView) : Summary :=
  let core_passed := countPassed fs core_files
  let test_passed := countPassed fs test_files
  let data_passed := countPassed fs data_files
  let network_passed := countPassed fs network_files
  let combat_methods_passed :=
    countMethods fs "Scripts/Core/CombatSystem.cs" combat_methods
  let projectile_methods_passed :=
    countMethods fs "Scripts/Core/ProjectileManager.cs" projectile_methods
  let total_passed := core_passed + test_passed + data_passed + network_passed +
    combat_methods_passed + projectile_methods_passed
  let total_checks := core_files.length + test_files.length + data_files.length +
    network_files.length + combat_methods.length + projectile_methods.length
  let success := passCheck total_passed total_checks
  ⟨core_passed, test_passed, data_passed, network_passed,
   combat_methods_passed, projectile_methods_passed,
   total_passed, total_checks, success, if success then 0 else 1⟩

end Validator

namespace Validator

/-- At `checks = 30` — the only total the script can produce — the
binary64 threshold `30 * 0.8` is exactly `24.0`, so the float
comparison coincides with the integer one. -/
theorem passCheck_30 (tp : Nat) : passCheck tp 30 = decide (tp ≥ 24) := by
  have h1 : thresholdExp 30 = 4 := by decide
  have h2 : thresholdMantissa 30 = 6755399441055744 := by decide
  rw [passCheck, h1, h2]
  have h3 : (2 : Nat) ^ (52 - 4) = 281474976710656 := by norm_num
  rw [h3]
  simp only [decide_eq_decide]
  omega

/-- C1: the validator's exit code is 0 iff at least 80% of the checks
pass (`passed / checks ≥ 0.8`, stated integrally as
`5 * passed ≥ 4 * checks`), including at the exact boundary: with the
constant total of 30 checks, `30 * 0.8` is exactly `24.0` in binary64,
so 24 passed checks exit with 0. -/
theorem C1_exit_code_iff_80_percent (fs : String → FileView) :
    (mainRun fs).exitCode = 0 ↔
      5 * (mainRun fs).total_passed ≥ 4 * (mainRun fs).total_checks := by
  have hex : (mainRun fs).exitCode
      = if passCheck ((mainRun fs).total_passed) 30 then 0 else 1 := rfl
  have hch : (mainRun fs).total_checks = 30 := rfl
  rw [hex, hch, passCheck_30]
  by_cases h : (mainRun fs).total_passed ≥ 24 <;> simp [h] <;> omega

/-- C6: when a checklist entry's file is missing, the existence check,
the declaration check and the method check for it all come out failed,
and the number of checks the run tallies is 30 whatever the
filesystem contains — every loop runs over its whole list. -/
theorem C6_missing_file_checks_fail (fs : String → FileView) (p name : String) :
    (fs p = .missing →
      check_file_exists fs p = false ∧
      check_class_definition fs p name = false ∧
      check_method_exists fs p name = false) ∧
    (mainRun fs).total_checks = 30 := by
  refine ⟨fun h => ?_, rfl⟩
  refine ⟨?_, ?_, ?_⟩ <;>
    simp only [check_file_exists, check_class_definition, check_method_exists, h]

/-- Instance of `C6_missing_file_checks_fail` on the everything-missing
filesystem at the first checklist entry. -/
theorem C6_missing_file_checks_fail_witness :
    (check_file_exists (fun _ => FileView.missing) "Scripts/Core/CombatSystem.cs" = false ∧
     check_class_definition (fun _ => FileView.missing)
       "Scripts/Core/CombatSystem.cs" "CombatSystem" = false ∧
     check_method_exists (fun _ => FileView.missing)
       "Scripts/Core/CombatSystem.cs" "CombatSystem" = false) ∧
    (mainRun (fun _ => FileView.missing)).total_checks = 30 :=
  ⟨(C6_missing_file_checks_fail (fun _ => FileView.missing)
      "Scripts/Core/CombatSystem.cs" "CombatSystem").1 rfl,
   (C6_missing_file_checks_fail (fun _ => FileView.missing)
      "Scripts/Core/CombatSystem.cs" "CombatSystem").2⟩

end Validator

namespace MapDeploy

open PyStr

/-- C5: when the scan yields no template (in particular on an empty
directory), `run_deploy` returns after printing the warning: zero
templates, no subprocess call, no stderr output. -/
theorem C5_no_templates_no_call (files : List (String × List String))
    (res : List String → SubprocessResult)
    (h : deployTemplates? files = some []) :
    run_deploy files res = some ⟨[], [], true, none⟩ := by
  unfold run_deploy
  rw [h]
  rfl

/-- Instance of `C5_no_templates_no_call` on the empty directory. -/
theorem C5_no_templates_no_call_witness :
    deployTemplates? [] = some [] ∧
    run_deploy [] (fun _ => ⟨0, "", ""⟩) = some ⟨[], [], true, none⟩ :=
  ⟨rfl, C5_no_templates_no_call [] (fun _ => ⟨0, "", ""⟩) rfl⟩

/-- C7: a run of `run_deploy` invokes the external client at most
once, and whenever the (sole) invocation exits non-zero the client's
stderr text is printed; there is no retry. -/
theorem C7_single_call_reports_stderr (files : List (String × List String))
    (res : List String → SubprocessResult) (o : DeployOutcome)
    (h : run_deploy files res = some o) :
    o.calls.length ≤ 1 ∧
      ∀ cmd ∈ o.calls, (res cmd).returncode ≠ 0 →
        o.errPrinted = some (res cmd).stderr := by
  unfold run_deploy at h
  split at h
  · cases h
  · split at h
    · cases h
      exact ⟨by simp, by simp⟩
    · cases h
      refine ⟨by simp, ?_⟩
      intro cmd hc hr
      simp only [List.mem_singleton] at hc
      subst hc
      simp [hr]

/-- The single-file directory used to instantiate C7's theorem. -/
def c7Files : List (String × List String) := [("a.csv", ["1"])]

/-- An external client that always fails with stderr text `boom`. -/
def c7Res : List String → SubprocessResult := fun _ => ⟨1, "", "boom"⟩

/-- The outcome `run_deploy` produces on `c7Files` with `c7Res`. -/
def c7Outcome : DeployOutcome :=
  (run_deploy c7Files c7Res).getD ⟨[], [], false, none⟩

/-- Instance of `C7_single_call_reports_stderr` on a one-file
directory whose client call fails. -/
theorem C7_single_call_reports_stderr_witness :
    run_deploy c7Files c7Res = some c7Outcome ∧
    (c7Outcome.calls.length ≤ 1 ∧
      ∀ cmd ∈ c7Outcome.calls, (c7Res cmd).returncode ≠ 0 →
        c7Outcome.errPrinted = some (c7Res cmd).stderr) :=
  ⟨rfl, C7_single_call_reports_stderr c7Files c7Res c7Outcome rfl⟩

/-! Structural facts about `optList`, rows and flattening, shared by
the CSV claims. -/

theorem optList_map_spec {α β : Type} (f : α → Option β) :
    ∀ (l : List α) (r : List β), optList (l.map f) = some r →
      r.length = l.length ∧ ∀ i : Nat, r[i]? = (l[i]?).bind f := by
  intro l
  induction l with
  | nil =>
    intro r h
    cases h
    exact ⟨rfl, fun i => by simp⟩
  | cons a as ih =>
    intro r h
    rw [List.map_cons] at h
    cases ha : f a with
    | none => rw [ha] at h; cases h
    | some b =>
      rw [ha] at h
      have h' : (optList (as.map f)).map (b :: ·) = some r := h
      cases hrest : optList (as.map f) with
      | none => rw [hrest] at h'; cases h'
      | some rs =>
        rw [hrest] at h'
        cases h'
        obtain ⟨hlen, hidx⟩ := ih rs hrest
        refine ⟨by simp [hlen], fun i => ?_⟩
        cases i with
        | zero => simp [ha]
        | succ j => simpa using hidx j

theorem optList_map_total {α β : Type} (f : α → Option β) :
    ∀ (l : List α), (∀ a ∈ l, (f a).isSome = true) →
      ∃ r, optList (l.map f) = some r := by
  intro l
  induction l with
  | nil => exact fun _ => ⟨[], rfl⟩
  | cons a as ih =>
    intro h
    obtain ⟨b, hb⟩ := Option.isSome_iff_exists.mp (h a (by simp))
    obtain ⟨rs, hrs⟩ := ih (fun x hx => h x (by simp [hx]))
    refine ⟨b :: rs, ?_⟩
    rw [List.map_cons, hb]
    show (optList (as.map f)).map (b :: ·) = some (b :: rs)
    rw [hrs]
    rfl

theorem optList_map_none {α β : Type} (f : α → Option β) (a : α) (hn : f a = none) :
    ∀ (l : List α), a ∈ l → optList (l.map f) = none := by
  intro l
  induction l with
  | nil => intro ha; cases ha
  | cons x xs ih =>
    intro ha
    rw [List.map_cons]
    rcases List.mem_cons.mp ha with rfl | hmem
    · rw [hn]; rfl
    · cases hx : f x with
      | none => rfl
      | some b =>
        show (optList (xs.map f)).map (b :: ·) = none
        rw [ih hmem]
        rfl

theorem rowInts?_spec (line : String) (r : List Int)
    (hfil : ∀ t ∈ pySplit line, pyStrip t ≠ "")
    (h : rowInts? line = some r) :
    r.length = (pySplit line).length ∧
    ∀ c : Nat, r[c]? = ((pySplit line)[c]?).bind (fun t => pyInt? (pyStrip t)) := by
  have hfe : (pySplit line).filter (fun t => pyStrip t ≠ "") = pySplit line :=
    List.filter_eq_self.mpr (fun t ht => decide_eq_true (hfil t ht))
  unfold rowInts? at h
  rw [hfe] at h
  exact optList_map_spec _ _ _ h

theorem rowInts?_total (line : String)
    (hint : ∀ t ∈ pySplit line, (pyInt? (pyStrip t)).isSome = true) :
    ∃ r, rowInts? line = some r := by
  unfold rowInts?
  apply optList_map_total
  intro x hx
  rw [List.mem_filter] at hx
  exact hint x hx.1

theorem rowInts?_none (line : String) (t : String) (ht : t ∈ pySplit line)
    (hne : pyStrip t ≠ "") (hbad : pyInt? (pyStrip t) = none) :
    rowInts? line = none := by
  unfold rowInts?
  exact optList_map_none _ t hbad _ (List.mem_filter.mpr ⟨ht, decide_eq_true hne⟩)

theorem flatten_length_uniform {α : Type} (w : Nat) :
    ∀ (L : List (List α)), (∀ l ∈ L, l.length = w) →
      L.flatten.length = L.length * w := by
  intro L
  induction L with
  | nil => intro _; simp
  | cons l ls ih =>
    intro h
    rw [List.flatten_cons, List.length_append, h l (by simp),
        ih (fun x hx => h x (by simp [hx])), List.length_cons, Nat.succ_mul]
    omega

theorem flatten_uniform_getElem? {α : Type} (w : Nat) :
    ∀ (L : List (List α)) (r c : Nat), (∀ l ∈ L, l.length = w) → c < w →
      L.flatten[r * w + c]? = (L[r]?).bind (fun row => row[c]?) := by
  intro L
  induction L with
  | nil => intro r c _ _; simp
  | cons l ls ih =>
    intro r c h hc
    rw [List.flatten_cons]
    cases r with
    | zero =>
      rw [Nat.zero_mul, Nat.zero_add, List.getElem?_append,
          if_pos (by rw [h l (by simp)]; exact hc)]
      simp
    | succ n =>
      have hidx : n.succ * w + c = l.length + (n * w + c) := by
        rw [h l (by simp), Nat.succ_mul]
        ring
      rw [hidx, List.getElem?_append_right (Nat.le_add_right _ _),
          Nat.add_sub_cancel_left]
      rw [ih n c (fun x hx => h x (by simp [hx])) hc]
      simp

/-- The well-formedness the amended C4 assumes of one file: every
effective line splits into as many comma fields as the first line, and
every field strips to a nonempty token that parses as an integer. -/
def GridOK (content : List String) : Prop :=
  ∀ line ∈ effLines content,
    (pySplit line).length = (pySplit ((effLines content).headD "")).length ∧
    ∀ t ∈ pySplit line, pyStrip t ≠ "" ∧ (pyInt? (pyStrip t)).isSome = true

instance (content : List String) : Decidable (GridOK content) := by
  unfold GridOK
  exact inferInstance

theorem parseCsv?_invariant (content : List String) (w h : Nat) (td : List Int)
    (hok : GridOK content) (hp : parseCsv? content = some (some (w, h, td))) :
    w * h = td.length := by
  unfold parseCsv? at hp
  by_cases heff : effLines content = []
  · rw [if_pos heff] at hp
    cases hp
  · rw [if_neg heff] at hp
    cases hopt : optList ((effLines content).map rowInts?) with
    | none => rw [hopt] at hp; cases hp
    | some rows =>
      rw [hopt] at hp
      have hp2 : some (some (((pySplit ((effLines content).headD "")).length,
          (effLines content).length, rows.flatten) : Nat × Nat × List Int)) =
          some (some (w, h, td)) := hp
      simp only [Option.some.injEq, Prod.mk.injEq] at hp2
      obtain ⟨hw, hh, htd⟩ := hp2
      subst hw; subst hh; subst htd
      obtain ⟨hlen, hidx⟩ := optList_map_spec rowInts? _ rows hopt
      have hrowlen : ∀ row ∈ rows,
          row.length = (pySplit ((effLines content).headD "")).length := by
        intro row hrow
        obtain ⟨i, hi⟩ := List.mem_iff_getElem?.mp hrow
        have h2 := hidx i
        rw [hi] at h2
        cases hline : (effLines content)[i]? with
        | none => rw [hline] at h2; cases h2
        | some line =>
          rw [hline] at h2
          have hmem : line ∈ effLines content := List.mem_iff_getElem?.mpr ⟨i, hline⟩
          obtain ⟨hsl, hts⟩ := hok line hmem
          obtain ⟨rl, _⟩ := rowInts?_spec line row (fun t ht => (hts t ht).1) h2.symm
          rw [rl, hsl]
      rw [flatten_length_uniform _ rows hrowlen, hlen, Nat.mul_comm]

/-- C3 as stated is false on inconsistent row lengths: this ragged CSV
(two fields in the first row, one in the second) is processed to
completion without any failure — `run_deploy` does not validate row
lengths, it just flattens what it finds. -/
theorem C3_ragged_rows_counterexample :
    deployTemplates? [("bad.csv", ["1,2", "3"])] =
      some [⟨"bad", 2, 2, [1, 2, 3]⟩] := by decide

/-- C3 amended: only a non-integer token makes per-file processing
fail (an unhandled `ValueError` aborts the whole run, here `none`);
rows of inconsistent length parse fine, as the counterexample shows. -/
theorem C3_nonint_token_fails (pre post : List (String × List String))
    (fname : String) (content : List String)
    (hcsv : strEndsWith fname ".csv" = true)
    (hbad : ∃ line ∈ effLines content, ∃ t ∈ pySplit line,
        pyStrip t ≠ "" ∧ pyInt? (pyStrip t) = none) :
    deployTemplates? (pre ++ (fname, content) :: post) = none := by
  obtain ⟨line, hline, t, ht, hne, hparse⟩ := hbad
  have hrow : rowInts? line = none := rowInts?_none line t ht hne hparse
  have heffne : effLines content ≠ [] := by
    intro h0
    rw [h0] at hline
    cases hline
  have hopt : optList ((effLines content).map rowInts?) = none :=
    optList_map_none rowInts? line hrow _ hline
  have hpc : parseCsv? content = none := by
    unfold parseCsv?
    rw [if_neg heffne, hopt]
    rfl
  induction pre with
  | nil =>
    simp only [List.nil_append]
    unfold deployTemplates?
    rw [if_pos hcsv, hpc]
  | cons fc tl ih =>
    obtain ⟨f, c⟩ := fc
    simp only [List.cons_append]
    unfold deployTemplates?
    rw [ih]
    split
    · split <;> rfl
    · rfl

/-- Instance of `C3_nonint_token_fails` on a one-file directory whose
file holds the non-integer token `x`. -/
theorem C3_nonint_token_fails_witness :
    strEndsWith "bad.csv" ".csv" = true ∧
    deployTemplates? ([] ++ ("bad.csv", ["x"]) :: []) = none :=
  ⟨by decide, C3_nonint_token_fails [] [] "bad.csv" ["x"] (by decide) (by decide)⟩

/-- C4 as stated is false: the directory holding one CSV whose single
row `1,,2` has an empty middle field is accepted without error, yet
its template has `width * height = 3` and only 2 tiles — the width
counts comma fields of the first row while the tile data keeps only
nonempty tokens. -/
theorem C4_invariant_counterexample :
    deployTemplates? [("bad.csv", ["1,,2"])] =
      some [⟨"bad", 3, 1, [1, 2]⟩] ∧
    (⟨"bad", 3, 1, [1, 2]⟩ : MapTemplate).width *
        (⟨"bad", 3, 1, [1, 2]⟩ : MapTemplate).height ≠
      (⟨"bad", 3, 1, [1, 2]⟩ : MapTemplate).tile_data.length :=
  ⟨by decide, by decide⟩

/-- C4 amended: the invariant `width * height = tile count` holds for
every template of every accepted directory each of whose `.csv` files
is a well-formed grid — every row has as many comma fields as the
file's first row and every field is a nonempty integer token.  Other
directory entries are never parsed and need not be well-formed.
(Without the grid restriction the invariant fails, as the
counterexample shows.) -/
theorem C4_wellformed_invariant (files : List (String × List String))
    (hok : ∀ fc ∈ files, strEndsWith fc.1 ".csv" = true → GridOK fc.2) :
    ∀ ts, deployTemplates? files = some ts →
      ∀ t ∈ ts, t.width * t.height = t.tile_data.length := by
  induction files with
  | nil =>
    intro ts hd
    cases hd
    intro t ht
    cases ht
  | cons fc rest ih =>
    obtain ⟨fname, content⟩ := fc
    intro ts hd
    unfold deployTemplates? at hd
    split at hd
    · rename_i hcsv
      split at hd
      · cases hd
      · exact ih (fun x hx hc => hok x (by simp [hx]) hc) ts hd
      · rename_i w h td hpc
        cases hrest : deployTemplates? rest with
        | none => rw [hrest] at hd; cases hd
        | some ts' =>
          rw [hrest] at hd
          cases hd
          intro t ht
          rcases List.mem_cons.mp ht with rfl | ht'
          · exact parseCsv?_invariant content w h td
              (hok (fname, content) (by simp) hcsv) hpc
          · exact ih (fun x hx hc => hok x (by simp [hx]) hc) ts' hrest t ht'
    · exact ih (fun x hx hc => hok x (by simp [hx]) hc) ts hd

/-- C8: with at least one template built, `run_deploy` makes exactly
one external call: the `spacetime` CLI with the literal reducer name
`replace_all_templates` and server URL `http://localhost:7734`, whose
payload argument is the JSON dump of the one-element argument array
holding the whole template list. -/
theorem C8_single_call_fixed_shape (files : List (String × List String))
    (res : List String → SubprocessResult) (ts : List MapTemplate)
    (hd : deployTemplates? files = some ts) (hne : ts ≠ []) :
    (run_deploy files res).map DeployOutcome.calls =
      some [["spacetime", "call", "-s", "http://localhost:7734", "guildmaster",
             "replace_all_templates", "[" ++ jsonTemplateList ts ++ "]"]] := by
  unfold run_deploy
  rw [hd]
  simp only [if_neg hne]
  rfl

/-- Instance of `C8_single_call_fixed_shape` on a one-file directory. -/
theorem C8_single_call_fixed_shape_witness :
    deployTemplates? [("a.csv", ["1"])] = some [⟨"a", 1, 1, [1]⟩] ∧
    (run_deploy [("a.csv", ["1"])]
        (fun _ => (⟨0, "", ""⟩ : SubprocessResult))).map DeployOutcome.calls =
      some [["spacetime", "call", "-s", "http://localhost:7734", "guildmaster",
             "replace_all_templates",
             "[" ++ jsonTemplateList [⟨"a", 1, 1, [1]⟩] ++ "]"]] :=
  ⟨by decide, C8_single_call_fixed_shape [("a.csv", ["1"])]
    (fun _ => (⟨0, "", ""⟩ : SubprocessResult)) [⟨"a", 1, 1, [1]⟩]
    (by decide) (by decide)⟩

theorem effLines_nil (content : List String) (h : ∀ l ∈ content, pyStrip l = "") :
    effLines content = [] := by
  unfold effLines
  rw [List.filter_eq_nil_iff]
  intro a ha
  rw [List.mem_map] at ha
  obtain ⟨l, hl, rfl⟩ := ha
  simp [h l hl]

theorem deployTemplates?_skip (fname : String) (content : List String)
    (post : List (String × List String))
    (hcsv : strEndsWith fname ".csv" = true)
    (hpc : parseCsv? content = some none) :
    deployTemplates? ((fname, content) :: post) = deployTemplates? post := by
  show (if strEndsWith fname ".csv" = true then
      match parseCsv? content with
      | none => none
      | some none => deployTemplates? post
      | some (some (w, h, td)) =>
        (deployTemplates? post).map
          (fun ts => ⟨strRemoveAll fname ".csv", w, h, td⟩ :: ts)
    else deployTemplates? post) = deployTemplates? post
  rw [if_pos hcsv, hpc]

/-- C9: a `.csv` file none of whose lines has non-whitespace content
is skipped: the templates of a directory containing it are exactly
those of the same directory without it. -/
theorem C9_blank_csv_skipped (pre post : List (String × List String))
    (fname : String) (content : List String)
    (hcsv : strEndsWith fname ".csv" = true)
    (hblank : ∀ l ∈ content, pyStrip l = "") :
    deployTemplates? (pre ++ (fname, content) :: post) =
      deployTemplates? (pre ++ post) := by
  have hpc : parseCsv? content = some none := by
    unfold parseCsv?
    rw [if_pos (effLines_nil content hblank)]
  induction pre with
  | nil =>
    simp only [List.nil_append]
    exact deployTemplates?_skip fname content post hcsv hpc
  | cons fc tl ih =>
    obtain ⟨f, c⟩ := fc
    simp only [List.cons_append]
    unfold deployTemplates?
    rw [ih]

/-- Instance of `C9_blank_csv_skipped` on a directory holding one
whitespace-only CSV between two real ones. -/
theorem C9_blank_csv_skipped_witness :
    strEndsWith "blank.csv" ".csv" = true ∧
    deployTemplates?
        ([("a.csv", ["1"])] ++ ("blank.csv", ["  ", ""]) :: [("b.csv", ["2"])]) =
      deployTemplates? ([("a.csv", ["1"])] ++ [("b.csv", ["2"])]) :=
  ⟨by decide, C9_blank_csv_skipped [("a.csv", ["1"])] [("b.csv", ["2"])]
    "blank.csv" ["  ", ""] (by decide) (by decide)⟩

/-- C2: for a CSV file of `R` non-empty rows each holding exactly `C`
comma-separated integer tokens, the produced template has width `C`,
height `R`, and a tile list of length `R * C` whose entry at flat
index `r * C + c` is the integer of row `r`, column `c`. -/
theorem C2_row_major_flattening (fname : String) (content : List String) (R C : Nat)
    (hcsv : strEndsWith fname ".csv" = true)
    (hR : (effLines content).length = R) (hR0 : 0 < R)
    (hC : ∀ line ∈ effLines content, (pySplit line).length = C)
    (htok : ∀ line ∈ effLines content, ∀ t ∈ pySplit line,
        pyStrip t ≠ "" ∧ (pyInt? (pyStrip t)).isSome = true) :
    ∃ td : List Int,
      deployTemplates? [(fname, content)] =
        some [⟨strRemoveAll fname ".csv", C, R, td⟩] ∧
      td.length = R * C ∧
      ∀ r c : Nat, r < R → c < C →
        td[r * C + c]? = ((effLines content)[r]?).bind
          (fun line => ((pySplit line)[c]?).bind (fun t => pyInt? (pyStrip t))) := by
  have heffne : effLines content ≠ [] := by
    intro h0
    rw [h0] at hR
    simp at hR
    omega
  obtain ⟨rows, hrows⟩ : ∃ rows, optList ((effLines content).map rowInts?) = some rows := by
    apply optList_map_total
    intro line hl
    obtain ⟨r, hr⟩ := rowInts?_total line (fun t ht => (htok line hl t ht).2)
    rw [hr]
    rfl
  obtain ⟨hlen, hidx⟩ := optList_map_spec rowInts? _ rows hrows
  have hW : (pySplit ((effLines content).headD "")).length = C := by
    apply hC
    cases he : effLines content with
    | nil => exact absurd he heffne
    | cons a l => simp
  have hpc : parseCsv? content = some (some (C, R, rows.flatten)) := by
    unfold parseCsv?
    rw [if_neg heffne, hrows]
    show some (some ((pySplit ((effLines content).headD "")).length,
      (effLines content).length, rows.flatten)) = some (some (C, R, rows.flatten))
    rw [hW, hR]
  have hrowlen : ∀ row ∈ rows, row.length = C := by
    intro row hrow
    obtain ⟨i, hi⟩ := List.mem_iff_getElem?.mp hrow
    have h2 := hidx i
    rw [hi] at h2
    cases hline : (effLines content)[i]? with
    | none => rw [hline] at h2; cases h2
    | some line =>
      rw [hline] at h2
      have hmem : line ∈ effLines content := List.mem_iff_getElem?.mpr ⟨i, hline⟩
      obtain ⟨rl, _⟩ := rowInts?_spec line row (fun t ht => (htok line hmem t ht).1) h2.symm
      rw [rl, hC line hmem]
  refine ⟨rows.flatten, ?_, ?_, ?_⟩
  · unfold deployTemplates?
    rw [if_pos hcsv, hpc]
    rfl
  · rw [flatten_length_uniform C rows hrowlen, hlen, hR]
  · intro r c hr hc
    rw [flatten_uniform_getElem? C rows r c hrowlen hc, hidx r]
    cases hline : (effLines content)[r]? with
    | none => rfl
    | some line =>
      have hmem : line ∈ effLines content := List.mem_iff_getElem?.mpr ⟨r, hline⟩
      obtain ⟨row, hrow⟩ := rowInts?_total line (fun t ht => (htok line hmem t ht).2)
      obtain ⟨_, ridx⟩ := rowInts?_spec line row (fun t ht => (htok line hmem t ht).1) hrow
      show (rowInts? line).bind (fun row => row[c]?) =
        ((pySplit line)[c]?).bind (fun t => pyInt? (pyStrip t))
      rw [hrow]
      exact ridx c

/-- Instance of `C2_row_major_flattening` on a 2-by-2 grid. -/
theorem C2_row_major_flattening_witness :
    strEndsWith "m.csv" ".csv" = true ∧
    ∃ td : List Int,
      deployTemplates? [("m.csv", ["1,2", "3,4"])] =
        some [⟨strRemoveAll "m.csv" ".csv", 2, 2, td⟩] ∧
      td.length = 2 * 2 ∧
      ∀ r c : Nat, r < 2 → c < 2 →
        td[r * 2 + c]? = ((effLines ["1,2", "3,4"])[r]?).bind
          (fun line => ((pySplit line)[c]?).bind (fun t => pyInt? (pyStrip t))) :=
  ⟨by decide, C2_row_major_flattening "m.csv" ["1,2", "3,4"] 2 2
    (by decide) (by decide) (by decide) (by decide) (by decide)⟩

/-- Instance of `C4_wellformed_invariant` on a directory holding a
non-CSV entry (never parsed, not a well-formed grid) next to a
well-formed CSV file. -/
theorem C4_wellformed_invariant_witness :
    (∀ fc ∈ [("readme.txt", ["hello"]), ("a.csv", ["1,2"])],
        strEndsWith fc.1 ".csv" = true → GridOK fc.2) ∧
    ∀ t ∈ [(⟨"a", 2, 1, [1, 2]⟩ : MapTemplate)],
      t.width * t.height = t.tile_data.length :=
  ⟨by decide, C4_wellformed_invariant
    [("readme.txt", ["hello"]), ("a.csv", ["1,2"])] (by decide)
    [⟨"a", 2, 1, [1, 2]⟩] (by decide)⟩

end MapDeploy

namespace Validator

open PyStr

/-- A nonempty run of whitespace characters. -/
def IsWs (w : List Char) : Prop := w ≠ [] ∧ ∀ c ∈ w, isPySpace c = true

theorem pLit_spec (lit s r : List Char) (h : r ∈ pLit lit s) : s = lit ++ r := by
  unfold pLit at h
  split at h
  · rename_i hp
    rcases List.mem_singleton.mp h with rfl
    obtain ⟨t, rfl⟩ := List.isPrefixOf_iff_prefix.mp hp
    rw [List.drop_left]
  · cases h

theorem pWs1_spec : ∀ (s r : List Char), r ∈ pWs1 s → ∃ w, IsWs w ∧ s = w ++ r := by
  intro s
  induction s with
  | nil =>
    intro r h
    simp [pWs1] at h
  | cons c rest ih =>
    intro r h
    unfold pWs1 at h
    split at h
    · rename_i hc
      rcases List.mem_cons.mp h with rfl | h'
      · exact ⟨[c], ⟨by simp, by simpa using hc⟩, rfl⟩
      · obtain ⟨w, ⟨hw1, hw2⟩, rfl⟩ := ih r h'
        refine ⟨c :: w, ⟨by simp, ?_⟩, rfl⟩
        intro x hx
        rcases List.mem_cons.mp hx with rfl | hx'
        · exact hc
        · exact hw2 x hx'
    · cases h

theorem pThen_spec (p q : List Char → List (List Char)) (s r : List Char)
    (h : r ∈ pThen p q s) : ∃ m, m ∈ p s ∧ r ∈ q m := by
  unfold pThen at h
  exact List.mem_flatMap.mp h

theorem pOpt_spec (p : List Char → List (List Char)) (s r : List Char)
    (h : r ∈ pOpt p s) : r = s ∨ r ∈ p s := by
  unfold pOpt at h
  exact List.mem_cons.mp h

theorem reSearch_exists (m : List Char → List (List Char)) :
    ∀ (s : List Char), reSearch m s = true →
      ∃ pre suf r, s = pre ++ suf ∧ r ∈ m suf := by
  intro s
  induction s with
  | nil =>
    intro h
    unfold reSearch at h
    obtain ⟨r, hr⟩ := List.exists_mem_of_ne_nil _ (by simpa using h)
    exact ⟨[], [], r, rfl, hr⟩
  | cons c rest ih =>
    intro h
    unfold reSearch at h
    rcases Bool.or_eq_true_iff.mp h with h1 | h2
    · obtain ⟨r, hr⟩ := List.exists_mem_of_ne_nil _ (by simpa using h1)
      exact ⟨[], c :: rest, r, rfl, hr⟩
    · obtain ⟨pre, suf, r, heq, hr⟩ := ih h2
      exact ⟨c :: pre, suf, r, by rw [heq, List.cons_append], hr⟩

theorem classPatAt_spec (name s r : List Char) (h : r ∈ classPatAt name s) :
    ∃ w1 kw w2, s = ("public".toList) ++ w1 ++ kw ++ w2 ++ name ++ r ∧
      IsWs w1 ∧ IsWs w2 ∧
      (kw = ("class".toList) ∨
        ∃ wp, IsWs wp ∧ kw = ("partial".toList) ++ wp ++ ("class".toList)) := by
  unfold classPatAt at h
  obtain ⟨m1, hm1, h⟩ := pThen_spec _ _ _ _ h
  obtain ⟨m2, hm2, h⟩ := pThen_spec _ _ _ _ h
  obtain ⟨m3, hm3, h⟩ := pThen_spec _ _ _ _ h
  obtain ⟨m4, hm4, h⟩ := pThen_spec _ _ _ _ h
  obtain ⟨m5, hm5, h⟩ := pThen_spec _ _ _ _ h
  have hs := pLit_spec _ _ _ hm1
  obtain ⟨w1, hw1, hm1eq⟩ := pWs1_spec _ _ hm2
  have hm4eq := pLit_spec _ _ _ hm4
  obtain ⟨w2, hw2, hm5eq⟩ := pWs1_spec _ _ hm5
  have hreq := pLit_spec _ _ _ h
  rcases pOpt_spec _ _ _ hm3 with rfl | hpart
  · refine ⟨w1, ("class".toList), w2, ?_, hw1, hw2, Or.inl rfl⟩
    rw [hs, hm1eq, hm4eq, hm5eq, hreq]
    simp [List.append_assoc]
  · obtain ⟨mp, hmp, hm3w⟩ := pThen_spec _ _ _ _ hpart
    have hm2eq := pLit_spec _ _ _ hmp
    obtain ⟨wp, hwp, hmpeq⟩ := pWs1_spec _ _ hm3w
    refine ⟨w1, ("partial".toList) ++ wp ++ ("class".toList), w2, ?_, hw1, hw2,
      Or.inr ⟨wp, hwp, rfl⟩⟩
    rw [hs, hm1eq, hm2eq, hmpeq, hm4eq, hm5eq, hreq]
    simp [List.append_assoc]

theorem ifacePatAt_spec (name s r : List Char) (h : r ∈ ifacePatAt name s) :
    ∃ w1 w2, s = ("public".toList) ++ w1 ++ ("interface".toList) ++ w2 ++ name ++ r ∧
      IsWs w1 ∧ IsWs w2 := by
  unfold ifacePatAt at h
  obtain ⟨m1, hm1, h⟩ := pThen_spec _ _ _ _ h
  obtain ⟨m2, hm2, h⟩ := pThen_spec _ _ _ _ h
  obtain ⟨m3, hm3, h⟩ := pThen_spec _ _ _ _ h
  obtain ⟨m4, hm4, h⟩ := pThen_spec _ _ _ _ h
  have hs := pLit_spec _ _ _ hm1
  obtain ⟨w1, hw1, hm1eq⟩ := pWs1_spec _ _ hm2
  have hm3eq := pLit_spec _ _ _ hm3
  obtain ⟨w2, hw2, hm4eq⟩ := pWs1_spec _ _ hm4
  have hreq := pLit_spec _ _ _ h
  refine ⟨w1, w2, ?_, hw1, hw2⟩
  rw [hs, hm1eq, hm3eq, hm4eq, hreq]
  simp [List.append_assoc]

theorem structPatAt_spec (name s r : List Char) (h : r ∈ structPatAt name s) :
    ∃ w1 w2, s = ("public".toList) ++ w1 ++ ("struct".toList) ++ w2 ++ name ++ r ∧
      IsWs w1 ∧ IsWs w2 := by
  unfold structPatAt at h
  obtain ⟨m1, hm1, h⟩ := pThen_spec _ _ _ _ h
  obtain ⟨m2, hm2, h⟩ := pThen_spec _ _ _ _ h
  obtain ⟨m3, hm3, h⟩ := pThen_spec _ _ _ _ h
  obtain ⟨m4, hm4, h⟩ := pThen_spec _ _ _ _ h
  have hs := pLit_spec _ _ _ hm1
  obtain ⟨w1, hw1, hm1eq⟩ := pWs1_spec _ _ hm2
  have hm3eq := pLit_spec _ _ _ hm3
  obtain ⟨w2, hw2, hm4eq⟩ := pWs1_spec _ _ hm4
  have hreq := pLit_spec _ _ _ h
  refine ⟨w1, w2, ?_, hw1, hw2⟩
  rw [hs, hm1eq, hm3eq, hm4eq, hreq]
  simp [List.append_assoc]

/-- Written from the claim: the content contains `public`, whitespace,
one of the three declaration keywords — for a class optionally with
`partial` plus whitespace in between — further whitespace, and then
the checked name. -/
def PublicDeclOccurs (name content : List Char) : Prop :=
  ∃ pre w1 kw w2 post,
    content = pre ++ ("public".toList) ++ w1 ++ kw ++ w2 ++ name ++ post ∧
    IsWs w1 ∧ IsWs w2 ∧
    (kw = ("class".toList) ∨ kw = ("interface".toList) ∨ kw = ("struct".toList) ∨
      ∃ wp, IsWs wp ∧ kw = ("partial".toList) ++ wp ++ ("class".toList))

/-- C10: `check_class_definition` answers true only when the file is
readable and its content contains the `public` modifier followed by
one of exactly three declaration shapes — `class` (optionally
`partial`), `interface` or `struct` — and then the checked name; a
file whose declaration of the name lacks the modifier (for instance
`internal class Foo`) makes the check return false, as the second
conjunct shows on that content. -/
theorem C10_public_shape_required :
    (∀ (fs : String → FileView) (p name : String),
        check_class_definition fs p name = true →
        ∃ content, fs p = .readable content ∧
          PublicDeclOccurs name.toList content.toList) ∧
    check_class_definition
      (fun _ => .readable "internal class Foo") "f.cs" "Foo" = false := by
  refine ⟨?_, by decide⟩
  intro fs p name h
  unfold check_class_definition at h
  cases hfp : fs p with
  | missing => rw [hfp] at h; exact Bool.noConfusion h
  | unreadable => rw [hfp] at h; exact Bool.noConfusion h
  | readable content =>
    rw [hfp] at h
    refine ⟨content, rfl, ?_⟩
    have h' : ((reSearch (classPatAt name.toList) content.toList ||
        reSearch (ifacePatAt name.toList) content.toList) ||
        reSearch (structPatAt name.toList) content.toList) = true := h
    rcases Bool.or_eq_true_iff.mp h' with h12 | h3
    · rcases Bool.or_eq_true_iff.mp h12 with h1 | h2
      · obtain ⟨pre, suf, r, heq, hr⟩ := reSearch_exists _ _ h1
        obtain ⟨w1, kw, w2, hsuf, hw1, hw2, hkw⟩ := classPatAt_spec _ _ _ hr
        refine ⟨pre, w1, kw, w2, r, ?_, hw1, hw2, ?_⟩
        · rw [heq, hsuf]
          simp [List.append_assoc]
        · rcases hkw with rfl | ⟨wp, hwp, rfl⟩
          · exact Or.inl rfl
          · exact Or.inr (Or.inr (Or.inr ⟨wp, hwp, rfl⟩))
      · obtain ⟨pre, suf, r, heq, hr⟩ := reSearch_exists _ _ h2
        obtain ⟨w1, w2, hsuf, hw1, hw2⟩ := ifacePatAt_spec _ _ _ hr
        refine ⟨pre, w1, ("interface".toList), w2, r, ?_, hw1, hw2,
          Or.inr (Or.inl rfl)⟩
        rw [heq, hsuf]
        simp [List.append_assoc]
    · obtain ⟨pre, suf, r, heq, hr⟩ := reSearch_exists _ _ h3
      obtain ⟨w1, w2, hsuf, hw1, hw2⟩ := structPatAt_spec _ _ _ hr
      refine ⟨pre, w1, ("struct".toList), w2, r, ?_, hw1, hw2,
        Or.inr (Or.inr (Or.inl rfl))⟩
      rw [heq, hsuf]
      simp [List.append_assoc]

/-- Instance of `C10_public_shape_required` on a file declaring
`public class Foo`. -/
theorem C10_public_shape_required_witness :
    check_class_definition
      (fun _ => FileView.readable "public class Foo") "f.cs" "Foo" = true ∧
    ∃ content,
      (fun _ => FileView.readable "public class Foo" : String → FileView) "f.cs" =
        FileView.readable content ∧
      PublicDeclOccurs ("Foo".toList) content.toList :=
  ⟨by decide, C10_public_shape_required.1
    (fun _ => FileView.readable "public class Foo") "f.cs" "Foo" (by decide)⟩

end Validator
